import Mathlib

/-!
Shallow embedding of the portfolio-tracking backend's core logic
(`trading/models.py` and the buy endpoint of `trading/views.py`).

Monetary amounts are 2-decimal-place `Decimal` values in the source; every
operation the code performs on them (multiplication by an integer quantity,
subtraction, addition) stays at 2 decimal places, so money is embedded
exactly as `Int` cent counts. Quantities are Python `int`, embedded as `Int`
(the code nowhere restricts their sign before arithmetic, which matters for
several claims). The relational store is embedded as explicit lists of
records threaded through every operation; a Django `save()` of an existing
row is a keyed in-place replacement, an `objects.create` is an append.
A raised `ValidationError` is an `Except.error`; where the source mutates
rows before raising, the error value carries the partially mutated store.
-/

structure Stock where
  symbol : String
  name : String
  currentPrice : Int
  lastUpdated : Int
deriving DecidableEq

structure Portfolio where
  userId : Nat
  balance : Int
deriving DecidableEq

structure StockHolding where
  portfolioId : Nat
  stockSym : String
  quantity : Int
deriving DecidableEq

structure Transaction where
  userId : Nat
  stockSym : String
  ttype : String
  quantity : Int
  price : Int
  totalAmount : Option Int
deriving DecidableEq

structure PortfolioSnapshot where
  portfolioId : Nat
  totalValue : Int
  cashBalance : Int
deriving DecidableEq

structure TradingState where
  stocks : List Stock
  portfolios : List Portfolio
  holdings : List StockHolding
  transactions : List Transaction
  snapshots : List PortfolioSnapshot
deriving DecidableEq

/-- Python's `str.upper()` on the symbol strings the repo deals in
(character-wise upper-casing). -/
def upperString (s : String) : String := String.mk (s.data.map Char.toUpper)

/-- `Stock.clean`: upper-cases the symbol, then rejects a non-positive
price (`models.py` lines 27-35). On rejection nothing is persisted. -/
def Stock.clean (s : Stock) : Except String Stock :=
  let s1 := { s with symbol := upperString s.symbol }
  if s1.currentPrice ≤ 0 then .error "Stock price must be positive"
  else .ok s1

/-- `Stock.save`: runs `clean` then persists (`models.py` lines 37-42);
creation of a new stock row is an insert. -/
def Stock.save (st : TradingState) (s : Stock) : Except String TradingState :=
  match s.clean with
  | .error e => .error e
  | .ok s1 => .ok { st with stocks := st.stocks ++ [s1] }

/-- Row lookup backing `Portfolio.objects.filter(user=...)...first()`. -/
def findPortfolio (st : TradingState) (uid : Nat) : Option Portfolio :=
  st.portfolios.find? (fun x => x.userId == uid)

/-- `Portfolio.save` of an existing row: replacement keyed by the owning
user (one portfolio per user). -/
def Portfolio.save (st : TradingState) (p : Portfolio) : TradingState :=
  { st with
    portfolios := st.portfolios.map (fun x => if x.userId == p.userId then p else x) }

/-- Row lookup for the unique (portfolio, stock) holding. -/
def findHolding (st : TradingState) (pid : Nat) (sym : String) : Option StockHolding :=
  st.holdings.find? (fun h => h.portfolioId == pid && h.stockSym == sym)

/-- `StockHolding.clean` (`models.py` lines 166-171). -/
def StockHolding.clean (h : StockHolding) : Except String Unit :=
  if h.quantity < 0 then .error "Quantity cannot be negative" else .ok ()

/-- `StockHolding.save`: validates via `clean`, then replaces the row keyed
by (portfolio, stock) (`models.py` lines 173-178). -/
def StockHolding.save (st : TradingState) (h : StockHolding) : Except String TradingState :=
  match h.clean with
  | .error e => .error e
  | .ok _ => .ok { st with
      holdings := st.holdings.map
        (fun x => if x.portfolioId == h.portfolioId && x.stockSym == h.stockSym then h else x) }

/-- `StockHolding.objects.get_or_create(portfolio, stock, defaults=quantity 0)`
(`models.py` lines 99-103): returns the existing row, or inserts and returns
a fresh row with quantity 0 (which passes `clean`). -/
def getOrCreateHolding (st : TradingState) (pid : Nat) (sym : String) :
    StockHolding × TradingState :=
  match findHolding st pid sym with
  | some h => (h, st)
  | none =>
      (⟨pid, sym, 0⟩, { st with holdings := st.holdings ++ [⟨pid, sym, 0⟩] })

/-- `Transaction.save` (`models.py` lines 211-217): derives
`total_amount = price * quantity`, then inserts the row. -/
def Transaction.save (st : TradingState) (t : Transaction) : TradingState :=
  { st with
    transactions := st.transactions ++ [{ t with totalAmount := some (t.price * t.quantity) }] }

/-- `Transaction.objects.create(user, stock, type, quantity, price)`
(`models.py` lines 108-114): builds the row (`total_amount` initially null)
and saves it. -/
def Transaction.create (st : TradingState) (user : Nat) (sym ttype : String)
    (q price : Int) : TradingState :=
  Transaction.save st ⟨user, sym, ttype, q, price, none⟩

/-- `Portfolio.can_buy_stock` (`models.py` lines 60-72):
`balance >= current_price * quantity`. -/
def Portfolio.can_buy_stock (p : Portfolio) (s : Stock) (q : Int) : Bool :=
  decide (s.currentPrice * q ≤ p.balance)

/-- `Portfolio.buy_stock` (`models.py` lines 74-114), step by step:
affordability guard (raising before any mutation), balance debit and save,
holding upsert, transaction append. The holding save can raise after the
balance save has persisted; the error carries the store as it stands at the
raise, exactly as the non-transactional source leaves it. -/
def Portfolio.buy_stock (st : TradingState) (p : Portfolio) (s : Stock) (q : Int) :
    Except (String × TradingState) TradingState :=
  if ¬ p.can_buy_stock s q then .error ("Insufficient funds", st)
  else
    let totalCost := s.currentPrice * q
    let p1 : Portfolio := { p with balance := p.balance - totalCost }
    let st1 := Portfolio.save st p1
    let hs := getOrCreateHolding st1 p.userId s.symbol
    let h1 : StockHolding := { hs.fst with quantity := hs.fst.quantity + q }
    match StockHolding.save hs.snd h1 with
    | .error e => .error (e, hs.snd)
    | .ok st3 => .ok (Transaction.create st3 p.userId s.symbol "BUY" q s.currentPrice)

/-- Price of the stock a holding references (`holding.stock.current_price`);
the source's foreign key always resolves, so the default is never hit there. -/
def stockPriceOf (st : TradingState) (sym : String) : Int :=
  match st.stocks.find? (fun s => s.symbol == sym) with
  | some s => s.currentPrice
  | none => 0

/-- `Portfolio.calculate_total_value` (`models.py` lines 116-129):
cash balance plus the sum of `current_price * quantity` over this
portfolio's holdings, in whatever order the store yields them. -/
def Portfolio.calculate_total_value (st : TradingState) (p : Portfolio) : Int :=
  p.balance +
    ((st.holdings.filter (fun h => h.portfolioId == p.userId)).map
      (fun h => stockPriceOf st h.stockSym * h.quantity)).sum

/-- `Portfolio.create_daily_snapshot` (`models.py` lines 131-142): computes
the current total value, inserts a snapshot row with it and the cash
balance, and returns the snapshot. -/
def Portfolio.create_daily_snapshot (st : TradingState) (p : Portfolio) :
    PortfolioSnapshot × TradingState :=
  let snap : PortfolioSnapshot := ⟨p.userId, Portfolio.calculate_total_value st p, p.balance⟩
  (snap, { st with snapshots := st.snapshots ++ [snap] })

/-- Responses of the buy endpoint: 200 success, 400 client error, the 404
of `get_object_or_404`, and an uncaught exception propagating out of the
view (the holding's `ValidationError` is neither caught by the
`(ValueError, TypeError)` handler nor matched by `handle_exception`). -/
inductive BuyResponse where
  | success (msg : String)
  | clientError (msg : String)
  | notFound
  | serverError (msg : String)
deriving DecidableEq

/-- `PortfolioViewSet.buy_stock` (`views.py` lines 34-60). The quantity
input is `some q` when `int(request.data.get('quantity'))` yields `q`, and
`none` when that conversion raises `ValueError`/`TypeError` (non-numeric or
missing input), which the view maps to a 400. The symbol is upper-cased for
the stock lookup; an unknown symbol is a 404. The view then re-checks
affordability and calls the executor. -/
def PortfolioViewSet.buy_stock (st : TradingState) (uid : Nat)
    (symbol : String) (quantityInput : Option Int) : BuyResponse × TradingState :=
  match quantityInput with
  | none => (.clientError "Invalid quantity provided", st)
  | some quantity =>
    match st.stocks.find? (fun s => s.symbol == upperString symbol) with
    | none => (.notFound, st)
    | some stock =>
      match findPortfolio st uid with
      | none => (.serverError "no portfolio for user", st)
      | some portfolio =>
        if portfolio.can_buy_stock stock quantity then
          match Portfolio.buy_stock st portfolio stock quantity with
          | .ok st1 =>
              (.success ("Successfully purchased " ++ toString quantity
                ++ " shares of " ++ symbol), st1)
          | .error ep => (.serverError ep.fst, ep.snd)
        else (.clientError "Insufficient funds for this purchase", st)

/-- The store as the caller of `buy_stock` observes it afterwards: the
committed state on success, the partially mutated state a raise leaves
behind otherwise. -/
def buyOutcome : Except (String × TradingState) TradingState → TradingState
  | .ok st => st
  | .error ep => ep.snd

/-- Data invariant of §3: every stored holding has non-negative quantity. -/
def holdingsNonneg (st : TradingState) : Prop :=
  ∀ h ∈ st.holdings, 0 ≤ h.quantity

/-! ### Concrete example records (amounts in cents: $150.00 = 15000) -/

def aapl : Stock := ⟨"AAPL", "Apple Inc.", 15000, 0⟩

def googl : Stock := ⟨"googl", "Google", 10000, 0⟩

def buyer : Portfolio := ⟨1, 100000⟩

def emptyState : TradingState := ⟨[], [], [], [], []⟩

/-- A store holding one stock and one funded portfolio ($1000.00). -/
def initState : TradingState := ⟨[aapl], [buyer], [], [], []⟩

/-- The store `initState` becomes after a successful buy of 2 AAPL. -/
def stAfterBuy : TradingState :=
  ⟨[aapl], [⟨1, 70000⟩], [⟨1, "AAPL", 2⟩],
    [⟨1, "AAPL", "BUY", 2, 15000, some 30000⟩], []⟩

/-- A store with two holdings, for order-independence of valuation. -/
def twoHoldState : TradingState :=
  ⟨[aapl, ⟨"GOOGL", "Google", 10000, 0⟩], [⟨1, 5000⟩],
    [⟨1, "AAPL", 5⟩, ⟨1, "GOOGL", 3⟩], [], []⟩

/-! ### List lemmas about keyed replacement and lookup -/

theorem find?_map_upd {α : Type} (P : α → Bool) (b : α) (hb : P b = true)
    (l : List α) (h : (l.find? P).isSome = true) :
    (l.map fun a => if P a then b else a).find? P = some b := by
  induction l with
  | nil => simp at h
  | cons a l ih =>
    by_cases hPa : P a = true
    · simp [List.find?_cons_of_pos, hPa, hb]
    · rw [List.find?_cons_of_neg _ hPa] at h
      simp only [List.map_cons, if_neg hPa]
      rw [List.find?_cons_of_neg _ hPa]
      exact ih h

theorem find?_map_congr {α : Type} (P Q : α → Bool) (b : α)
    (hQb : Q b = false) (hPQ : ∀ a, Q a = true → P a = false)
    (l : List α) :
    (l.map fun a => if P a then b else a).find? Q = l.find? Q := by
  induction l with
  | nil => simp
  | cons a l ih =>
    by_cases hQa : Q a = true
    · have hPa : P a = false := hPQ a hQa
      simp only [List.map_cons, hPa, Bool.false_eq_true, if_false]
      rw [List.find?_cons_of_pos _ hQa, List.find?_cons_of_pos _ hQa]
    · simp only [List.map_cons]
      by_cases hPa : P a = true
      · rw [if_pos hPa, List.find?_cons_of_neg _ (by simp [hQb]),
          List.find?_cons_of_neg _ hQa]
        exact ih
      · rw [if_neg hPa, List.find?_cons_of_neg _ hQa, List.find?_cons_of_neg _ hQa]
        exact ih

theorem find?_map_upd_append {α : Type} (P : α → Bool) (b c : α)
    (hb : P b = true) (hc : P c = true)
    (l : List α) (h : l.find? P = none) :
    ((l ++ [c]).map fun a => if P a then b else a).find? P = some b := by
  induction l with
  | nil => simp [List.find?_cons_of_pos, hc, hb]
  | cons a l ih =>
    have hPa : ¬ P a = true := by
      intro hp
      rw [List.find?_cons_of_pos _ hp] at h
      exact Option.noConfusion h
    rw [List.find?_cons_of_neg _ hPa] at h
    simp only [List.cons_append, List.map_cons, if_neg hPa]
    rw [List.find?_cons_of_neg _ hPa]
    exact ih h

theorem find?_append_congr {α : Type} (Q : α → Bool) (c : α)
    (hQc : Q c = false) (l : List α) :
    (l ++ [c]).find? Q = l.find? Q := by
  rw [List.find?_append]
  cases hl : l.find? Q with
  | some a => rfl
  | none => simp [List.find?_cons_of_neg, hQc]

/-! ### Reduction lemmas for `Portfolio.buy_stock` -/

theorem buy_stock_ok_some (st : TradingState) (p : Portfolio) (s : Stock) (q : Int)
    (h0 : StockHolding)
    (hcan : p.can_buy_stock s q = true)
    (hfh : findHolding st p.userId s.symbol = some h0)
    (hnn : ¬ h0.quantity + q < 0) :
    Portfolio.buy_stock st p s q = .ok
      { st with
        portfolios := st.portfolios.map
          (fun x => if x.userId == p.userId
            then { p with balance := p.balance - s.currentPrice * q } else x),
        holdings := st.holdings.map
          (fun x => if x.portfolioId == h0.portfolioId && x.stockSym == h0.stockSym
            then { h0 with quantity := h0.quantity + q } else x),
        transactions := st.transactions ++
          [⟨p.userId, s.symbol, "BUY", q, s.currentPrice, some (s.currentPrice * q)⟩] } := by
  have hfh2 : st.holdings.find? (fun h => h.portfolioId == p.userId && h.stockSym == s.symbol)
      = some h0 := hfh
  simp only [Portfolio.buy_stock, hcan, not_true_eq_false, if_false, getOrCreateHolding,
    findHolding, Portfolio.save, hfh2, StockHolding.save, StockHolding.clean,
    Transaction.create, Transaction.save, if_neg hnn]

theorem buy_stock_ok_none (st : TradingState) (p : Portfolio) (s : Stock) (q : Int)
    (hcan : p.can_buy_stock s q = true)
    (hfh : findHolding st p.userId s.symbol = none)
    (hnn : ¬ (0 : Int) + q < 0) :
    Portfolio.buy_stock st p s q = .ok
      { st with
        portfolios := st.portfolios.map
          (fun x => if x.userId == p.userId
            then { p with balance := p.balance - s.currentPrice * q } else x),
        holdings := (st.holdings ++ [(⟨p.userId, s.symbol, 0⟩ : StockHolding)]).map
          (fun x => if x.portfolioId == p.userId && x.stockSym == s.symbol
            then (⟨p.userId, s.symbol, 0 + q⟩ : StockHolding) else x),
        transactions := st.transactions ++
          [⟨p.userId, s.symbol, "BUY", q, s.currentPrice, some (s.currentPrice * q)⟩] } := by
  have hfh2 : st.holdings.find? (fun h => h.portfolioId == p.userId && h.stockSym == s.symbol)
      = none := hfh
  simp only [Portfolio.buy_stock, hcan, not_true_eq_false, if_false, getOrCreateHolding,
    findHolding, Portfolio.save, hfh2, StockHolding.save, StockHolding.clean,
    Transaction.create, Transaction.save, if_neg hnn]

theorem buy_stock_err_some (st : TradingState) (p : Portfolio) (s : Stock) (q : Int)
    (h0 : StockHolding)
    (hcan : p.can_buy_stock s q = true)
    (hfh : findHolding st p.userId s.symbol = some h0)
    (hneg : h0.quantity + q < 0) :
    Portfolio.buy_stock st p s q = .error ("Quantity cannot be negative",
      Portfolio.save st { p with balance := p.balance - s.currentPrice * q }) := by
  have hfh2 : st.holdings.find? (fun h => h.portfolioId == p.userId && h.stockSym == s.symbol)
      = some h0 := hfh
  simp only [Portfolio.buy_stock, hcan, not_true_eq_false, if_false, getOrCreateHolding,
    findHolding, Portfolio.save, hfh2, StockHolding.save, StockHolding.clean, if_pos hneg]

theorem buy_stock_err_none (st : TradingState) (p : Portfolio) (s : Stock) (q : Int)
    (hcan : p.can_buy_stock s q = true)
    (hfh : findHolding st p.userId s.symbol = none)
    (hneg : (0 : Int) + q < 0) :
    Portfolio.buy_stock st p s q = .error ("Quantity cannot be negative",
      { stocks := st.stocks,
        portfolios := st.portfolios.map
          (fun x => if x.userId == p.userId
            then { p with balance := p.balance - s.currentPrice * q } else x),
        holdings := st.holdings ++ [⟨p.userId, s.symbol, 0⟩],
        transactions := st.transactions,
        snapshots := st.snapshots }) := by
  have hfh2 : st.holdings.find? (fun h => h.portfolioId == p.userId && h.stockSym == s.symbol)
      = none := hfh
  simp only [Portfolio.buy_stock, hcan, not_true_eq_false, if_false, getOrCreateHolding,
    findHolding, Portfolio.save, hfh2, StockHolding.save, StockHolding.clean, if_pos hneg]

/-! ### Claim theorems -/

/-- C2: whenever the balance is strictly below `current_price * quantity`,
`buy_stock` fails with the "Insufficient funds" `ValidationError` and the
store it leaves behind is exactly the one it started from: balance, every
holding and the transaction list are unchanged. -/
theorem buy_stock_insufficient_funds (st : TradingState) (p : Portfolio) (s : Stock) (q : Int)
    (h : p.balance < s.currentPrice * q) :
    Portfolio.buy_stock st p s q = .error ("Insufficient funds", st) := by
  have hcan : p.can_buy_stock s q = false := by
    simp only [Portfolio.can_buy_stock, decide_eq_false_iff_not, not_le]
    exact h
  simp [Portfolio.buy_stock, hcan]

/-- Witness for C2 at the spec §8 scenario: balance $1000.00, price
$150.00, quantity 10 ($1500.00 total). -/
theorem buy_stock_insufficient_funds_witness :
    buyer.balance < aapl.currentPrice * 10 ∧
    Portfolio.buy_stock initState buyer aapl 10 = .error ("Insufficient funds", initState) :=
  ⟨by decide, buy_stock_insufficient_funds initState buyer aapl 10 (by decide)⟩

/-- C3 (code bug): a failing buy is NOT all-or-nothing. Buying quantity -1
on a fresh portfolio passes the affordability check (the cost is negative),
saves the credited balance ($1000.00 becomes $1150.00) and inserts a
quantity-0 holding, and only then raises from the holding write — leaving
the balance changed with no transaction recorded. -/
theorem buy_stock_partial_mutation :
    Portfolio.buy_stock initState buyer aapl (-1) =
      .error ("Quantity cannot be negative",
        ⟨[aapl], [⟨1, 115000⟩], [⟨1, "AAPL", 0⟩], [], []⟩) ∧
    (buyOutcome (Portfolio.buy_stock initState buyer aapl (-1))).portfolios ≠
      initState.portfolios ∧
    (buyOutcome (Portfolio.buy_stock initState buyer aapl (-1))).transactions =
      initState.transactions :=
  ⟨rfl, by decide, rfl⟩

/-- C4 (code bug): the buy endpoint does not reject non-positive integer
quantities. With quantity 0 (a non-positive integer) the view reaches and
runs the executor — a BUY transaction row is appended — and answers with a
success response instead of an invalid-order rejection. -/
theorem view_buy_accepts_nonpositive_quantity :
    PortfolioViewSet.buy_stock initState 1 "AAPL" (some 0) =
      (.success "Successfully purchased 0 shares of AAPL",
        ⟨[aapl], [⟨1, 100000⟩], [⟨1, "AAPL", 0⟩],
          [⟨1, "AAPL", "BUY", 0, 15000, some 0⟩], []⟩) := by decide

/-- C1: a successful buy with `balance >= current_price * quantity` leaves
the balance at exactly `old balance - current_price * quantity`
(cent-exact), leaves the (portfolio, stock) holding at its old quantity
plus `quantity` (starting from a fresh quantity-0 holding when absent),
and appends exactly one BUY transaction carrying the execution-time price
and `total_amount = price * quantity`. -/
theorem buy_stock_success_effects (st : TradingState) (p : Portfolio) (s : Stock) (q : Int)
    (hp : findPortfolio st p.userId = some p)
    (hafford : s.currentPrice * q ≤ p.balance)
    (st' : TradingState)
    (hok : Portfolio.buy_stock st p s q = .ok st') :
    findPortfolio st' p.userId =
      some { p with balance := p.balance - s.currentPrice * q } ∧
    (∀ h0, findHolding st p.userId s.symbol = some h0 →
      findHolding st' p.userId s.symbol = some { h0 with quantity := h0.quantity + q }) ∧
    (findHolding st p.userId s.symbol = none →
      findHolding st' p.userId s.symbol = some ⟨p.userId, s.symbol, q⟩) ∧
    st'.transactions = st.transactions ++
      [⟨p.userId, s.symbol, "BUY", q, s.currentPrice, some (s.currentPrice * q)⟩] := by
  have hcan : p.can_buy_stock s q = true := by
    simp only [Portfolio.can_buy_stock, decide_eq_true_eq]
    exact hafford
  have hpsome : (st.portfolios.find? (fun x => x.userId == p.userId)).isSome = true := by
    have hp2 : st.portfolios.find? (fun x => x.userId == p.userId) = some p := hp
    rw [hp2]; rfl
  cases hfh : findHolding st p.userId s.symbol with
  | some h0 =>
    by_cases hneg : h0.quantity + q < 0
    · rw [buy_stock_err_some st p s q h0 hcan hfh hneg] at hok
      exact absurd hok (by simp)
    · rw [buy_stock_ok_some st p s q h0 hcan hfh hneg] at hok
      injection hok with h2
      subst h2
      have hfh3 : st.holdings.find?
          (fun h => h.portfolioId == p.userId && h.stockSym == s.symbol) = some h0 := hfh
      obtain ⟨hpid, hsym⟩ : h0.portfolioId = p.userId ∧ h0.stockSym = s.symbol := by
        simpa using List.find?_some hfh3
      have hsome : (st.holdings.find?
          (fun h => h.portfolioId == p.userId && h.stockSym == s.symbol)).isSome = true := by
        rw [hfh3]; rfl
      refine ⟨?_, ?_, ?_, rfl⟩
      · exact find?_map_upd _ _ (by simp) _ hpsome
      · intro h0' hfh'
        injection hfh' with h3
        subst h3
        simp only [findHolding]
        rw [hpid, hsym]
        exact find?_map_upd _ _ (by simp) _ hsome
      · intro hnone
        exact absurd hnone (by simp)
  | none =>
    by_cases hneg : (0 : Int) + q < 0
    · rw [buy_stock_err_none st p s q hcan hfh hneg] at hok
      exact absurd hok (by simp)
    · rw [buy_stock_ok_none st p s q hcan hfh hneg] at hok
      injection hok with h2
      subst h2
      have hfhn : st.holdings.find?
          (fun h => h.portfolioId == p.userId && h.stockSym == s.symbol) = none := hfh
      refine ⟨?_, ?_, ?_, rfl⟩
      · exact find?_map_upd _ _ (by simp) _ hpsome
      · intro h0' hfh'
        exact absurd hfh' (by simp)
      · intro _
        have hupd := find?_map_upd_append
          (fun h => h.portfolioId == p.userId && h.stockSym == s.symbol)
          (⟨p.userId, s.symbol, 0 + q⟩ : StockHolding)
          (⟨p.userId, s.symbol, 0⟩ : StockHolding)
          (by simp) (by simp) st.holdings hfhn
        simp only [findHolding]
        rw [hupd]
        simp

/-- Witness for C1: the §8 scenario, buying 2 AAPL at $150.00 from
$1000.00, appends the single BUY transaction with total $300.00. -/
theorem buy_stock_success_effects_witness :
    stAfterBuy.transactions = initState.transactions ++
      [⟨1, "AAPL", "BUY", 2, 15000, some 30000⟩] :=
  (buy_stock_success_effects initState buyer aapl 2 rfl (by decide) stAfterBuy rfl).2.2.2

/-- C10: a successful buy touches only its own portfolio row, its own
(portfolio, stock) holding row, and the end of the transaction log: the
stock table (symbol, name, price, timestamp), the snapshot table, every
other user's portfolio, every other (portfolio, stock) holding, and all
pre-existing transactions are exactly as before; one BUY row is appended.
-/
theorem buy_stock_frame (st : TradingState) (p : Portfolio) (s : Stock) (q : Int)
    (st' : TradingState) (hok : Portfolio.buy_stock st p s q = .ok st') :
    st'.stocks = st.stocks ∧
    st'.snapshots = st.snapshots ∧
    (∀ uid, uid ≠ p.userId → findPortfolio st' uid = findPortfolio st uid) ∧
    (∀ pid sym, pid ≠ p.userId ∨ sym ≠ s.symbol →
      findHolding st' pid sym = findHolding st pid sym) ∧
    ∃ t : Transaction, t.ttype = "BUY" ∧ st'.transactions = st.transactions ++ [t] := by
  have hcan : p.can_buy_stock s q = true := by
    cases hc : p.can_buy_stock s q with
    | true => rfl
    | false =>
        rw [Portfolio.buy_stock, if_pos (by simp [hc])] at hok
        exact absurd hok (by simp)
  have hpframe : ∀ uid, uid ≠ p.userId →
      (st.portfolios.map (fun x => if x.userId == p.userId
        then { p with balance := p.balance - s.currentPrice * q } else x)).find?
          (fun x => x.userId == uid) =
        st.portfolios.find? (fun x => x.userId == uid) := by
    intro uid huid
    refine find?_map_congr _ _ _ (by simp [beq_eq_false_iff_ne.mpr (Ne.symm huid)]) ?_ _
    intro a ha
    have ha1 : a.userId = uid := by simpa using ha
    have : (a.userId == p.userId) = false := by
      rw [ha1]; exact beq_eq_false_iff_ne.mpr huid
    simp [this]
  cases hfh : findHolding st p.userId s.symbol with
  | some h0 =>
    by_cases hneg : h0.quantity + q < 0
    · rw [buy_stock_err_some st p s q h0 hcan hfh hneg] at hok
      exact absurd hok (by simp)
    · rw [buy_stock_ok_some st p s q h0 hcan hfh hneg] at hok
      injection hok with h2
      subst h2
      have hfh3 : st.holdings.find?
          (fun h => h.portfolioId == p.userId && h.stockSym == s.symbol) = some h0 := hfh
      obtain ⟨hpid, hsym⟩ : h0.portfolioId = p.userId ∧ h0.stockSym = s.symbol := by
        simpa using List.find?_some hfh3
      refine ⟨rfl, rfl, hpframe, ?_,
        ⟨⟨p.userId, s.symbol, "BUY", q, s.currentPrice, some (s.currentPrice * q)⟩, rfl, rfl⟩⟩
      intro pid sym hdiff
      simp only [findHolding]
      refine find?_map_congr _ _ _ ?_ ?_ _
      · rcases hdiff with hd | hd
        · have : (h0.portfolioId == pid) = false := by
            rw [hpid]; exact beq_eq_false_iff_ne.mpr (Ne.symm hd)
          simp [this]
        · have : (h0.stockSym == sym) = false := by
            rw [hsym]; exact beq_eq_false_iff_ne.mpr (Ne.symm hd)
          simp [this]
      · intro a ha
        obtain ⟨ha1, ha2⟩ : a.portfolioId = pid ∧ a.stockSym = sym := by simpa using ha
        rcases hdiff with hd | hd
        · have : (a.portfolioId == h0.portfolioId) = false := by
            rw [ha1, hpid]; exact beq_eq_false_iff_ne.mpr hd
          simp [this]
        · have : (a.stockSym == h0.stockSym) = false := by
            rw [ha2, hsym]; exact beq_eq_false_iff_ne.mpr hd
          simp [this]
  | none =>
    by_cases hneg : (0 : Int) + q < 0
    · rw [buy_stock_err_none st p s q hcan hfh hneg] at hok
      exact absurd hok (by simp)
    · rw [buy_stock_ok_none st p s q hcan hfh hneg] at hok
      injection hok with h2
      subst h2
      refine ⟨rfl, rfl, hpframe, ?_,
        ⟨⟨p.userId, s.symbol, "BUY", q, s.currentPrice, some (s.currentPrice * q)⟩, rfl, rfl⟩⟩
      intro pid sym hdiff
      simp only [findHolding]
      have hfalse : ((p.userId == pid) && (s.symbol == sym)) = false := by
        rcases hdiff with hd | hd
        · simp [beq_eq_false_iff_ne.mpr (Ne.symm hd)]
        · simp [beq_eq_false_iff_ne.mpr (Ne.symm hd)]
      have hpq : ∀ a : StockHolding, (a.portfolioId == pid && a.stockSym == sym) = true →
          (a.portfolioId == p.userId && a.stockSym == s.symbol) = false := by
        intro a ha
        obtain ⟨ha1, ha2⟩ : a.portfolioId = pid ∧ a.stockSym = sym := by simpa using ha
        rcases hdiff with hd | hd
        · have : (a.portfolioId == p.userId) = false := by
            rw [ha1]; exact beq_eq_false_iff_ne.mpr hd
          simp [this]
        · have : (a.stockSym == s.symbol) = false := by
            rw [ha2]; exact beq_eq_false_iff_ne.mpr hd
          simp [this]
      rw [find?_map_congr (fun x => x.portfolioId == p.userId && x.stockSym == s.symbol)
          (fun h => h.portfolioId == pid && h.stockSym == sym)
          (⟨p.userId, s.symbol, 0 + q⟩ : StockHolding) (by simpa using hfalse) hpq
          (st.holdings ++ [(⟨p.userId, s.symbol, 0⟩ : StockHolding)]),
        find?_append_congr (fun h => h.portfolioId == pid && h.stockSym == sym)
          (⟨p.userId, s.symbol, 0⟩ : StockHolding) (by simpa using hfalse) st.holdings]

/-- Witness for C10: after buyer 1 purchases 2 AAPL, the (absent)
portfolio of user 2 is looked up identically before and after. -/
theorem buy_stock_frame_witness :
    findPortfolio stAfterBuy 2 = findPortfolio initState 2 :=
  ((buy_stock_frame initState buyer aapl 2 stAfterBuy rfl).2.2.1) 2 (by decide)

/-- Replacing one holding row by a non-negative one preserves
non-negativity of every row. -/
theorem nonneg_map_upd (l : List StockHolding) (b : StockHolding)
    (hb : 0 ≤ b.quantity) (P : StockHolding → Bool)
    (hl : ∀ x ∈ l, 0 ≤ x.quantity) :
    ∀ x ∈ l.map (fun a => if P a then b else a), 0 ≤ x.quantity := by
  intro x hx
  obtain ⟨a, ha, rfl⟩ := List.mem_map.mp hx
  by_cases hPa : P a = true
  · simpa [hPa] using hb
  · simpa [hPa] using hl a ha

/-- C5: `calculate_total_value` is the cash balance plus the sum of
`quantity * current_price` over the portfolio's holdings, it is a pure
function of the store (the embedding returns only the value — nothing is
written), and its result does not depend on the order in which the store
yields the holdings. -/
theorem calculate_total_value_spec (st : TradingState) (p : Portfolio)
    (l' : List StockHolding) (hperm : st.holdings.Perm l') :
    Portfolio.calculate_total_value st p =
      p.balance + ((st.holdings.filter (fun h => h.portfolioId == p.userId)).map
        (fun h => stockPriceOf st h.stockSym * h.quantity)).sum ∧
    Portfolio.calculate_total_value { st with holdings := l' } p =
      Portfolio.calculate_total_value st p := by
  refine ⟨rfl, ?_⟩
  have hsp : stockPriceOf { st with holdings := l' } = stockPriceOf st := rfl
  simp only [Portfolio.calculate_total_value, hsp]
  exact congrArg (fun x => p.balance + x)
    (((hperm.filter (fun h => h.portfolioId == p.userId)).map
      (fun h => stockPriceOf st h.stockSym * h.quantity)).sum_eq).symm

/-- Witness for C5: valuing {AAPL:5, GOOGL:3} equals valuing
{GOOGL:3, AAPL:5}. -/
theorem calculate_total_value_spec_witness :
    twoHoldState.holdings.Perm [⟨1, "GOOGL", 3⟩, ⟨1, "AAPL", 5⟩] ∧
    Portfolio.calculate_total_value
      { twoHoldState with holdings := [⟨1, "GOOGL", 3⟩, ⟨1, "AAPL", 5⟩] } ⟨1, 5000⟩ =
      Portfolio.calculate_total_value twoHoldState ⟨1, 5000⟩ :=
  ⟨by decide, (calculate_total_value_spec twoHoldState ⟨1, 5000⟩
    [⟨1, "GOOGL", 3⟩, ⟨1, "AAPL", 5⟩] (by decide)).2⟩

/-- C6: every write of a holding with negative quantity is rejected by
`clean` with no new store produced, an accepted holding write keeps every
stored quantity non-negative, and `buy_stock` — whichever way it exits,
committed or raised-midway — preserves the quantity >= 0 invariant of
every reachable store. -/
theorem holding_nonneg_invariant (st : TradingState) (h : StockHolding) :
    (h.quantity < 0 → StockHolding.save st h = .error "Quantity cannot be negative") ∧
    (∀ st', StockHolding.save st h = .ok st' → holdingsNonneg st → holdingsNonneg st') ∧
    (∀ p s q, holdingsNonneg st →
      holdingsNonneg (buyOutcome (Portfolio.buy_stock st p s q))) := by
  refine ⟨?_, ?_, ?_⟩
  · intro hneg
    simp [StockHolding.save, StockHolding.clean, hneg]
  · intro st' hok hnn
    by_cases hneg : h.quantity < 0
    · simp [StockHolding.save, StockHolding.clean, hneg] at hok
    · simp only [StockHolding.save, StockHolding.clean, if_neg hneg, Except.ok.injEq] at hok
      rw [← hok]
      exact nonneg_map_upd st.holdings h (le_of_not_lt hneg) _ hnn
  · intro p s q hnn
    by_cases hcan : p.can_buy_stock s q = true
    · cases hfh : findHolding st p.userId s.symbol with
      | some h0 =>
        by_cases hneg : h0.quantity + q < 0
        · rw [buy_stock_err_some st p s q h0 hcan hfh hneg]
          exact hnn
        · rw [buy_stock_ok_some st p s q h0 hcan hfh hneg]
          exact nonneg_map_upd st.holdings _ (le_of_not_lt hneg) _ hnn
      | none =>
        by_cases hneg : (0 : Int) + q < 0
        · rw [buy_stock_err_none st p s q hcan hfh hneg]
          intro x hx
          rcases List.mem_append.mp hx with hx1 | hx1
          · exact hnn x hx1
          · rcases List.mem_singleton.mp hx1 with rfl
            exact le_refl 0
        · rw [buy_stock_ok_none st p s q hcan hfh hneg]
          intro x hx
          obtain ⟨a, ha, rfl⟩ := List.mem_map.mp hx
          by_cases hPa : (a.portfolioId == p.userId && a.stockSym == s.symbol) = true
          · simpa [hPa] using le_of_not_lt hneg
          · rcases List.mem_append.mp ha with ha1 | ha1
            · simpa [hPa] using hnn a ha1
            · rcases List.mem_singleton.mp ha1 with rfl
              exact absurd (by simp) hPa
    · have hcan2 : p.can_buy_stock s q = false := by simpa using hcan
      simp only [Portfolio.buy_stock, hcan2, Bool.false_eq_true, not_false_eq_true, if_true]
      exact hnn

/-- Witness for C6: writing a quantity -1 holding into the example store
is rejected with the holding `ValidationError`. -/
theorem holding_nonneg_invariant_witness :
    StockHolding.save initState ⟨1, "AAPL", -1⟩ = .error "Quantity cannot be negative" :=
  (holding_nonneg_invariant initState ⟨1, "AAPL", -1⟩).1 (by decide)

/-- C7: every stock write that persists stores the upper-cased form of the
given symbol, whatever the input string. -/
theorem stock_save_uppercase (st : TradingState) (s : Stock) (st' : TradingState)
    (hok : Stock.save st s = .ok st') :
    st'.stocks = st.stocks ++ [{ s with symbol := upperString s.symbol }] := by
  by_cases hpr : s.currentPrice ≤ 0
  · simp [Stock.save, Stock.clean, hpr] at hok
  · simp only [Stock.save, Stock.clean, if_neg hpr, Except.ok.injEq] at hok
    rw [← hok]

/-- Witness for C7: saving a stock with symbol "googl" stores "GOOGL". -/
theorem stock_save_uppercase_witness :
    Stock.save emptyState googl =
      .ok ⟨[⟨"GOOGL", "Google", 10000, 0⟩], [], [], [], []⟩ ∧
    (⟨[⟨"GOOGL", "Google", 10000, 0⟩], [], [], [], []⟩ : TradingState).stocks =
      emptyState.stocks ++ [⟨"GOOGL", "Google", 10000, 0⟩] :=
  ⟨by rfl, stock_save_uppercase emptyState googl _ (by rfl)⟩

/-- C8: a stock write with non-positive price is rejected with the price
`ValidationError` and produces no store at all, while a strictly positive
price is not rejected by this rule. -/
theorem stock_price_validation (st : TradingState) (s : Stock) :
    (s.currentPrice ≤ 0 → Stock.save st s = .error "Stock price must be positive") ∧
    (0 < s.currentPrice → ∃ st', Stock.save st s = .ok st') := by
  constructor
  · intro hpr
    simp [Stock.save, Stock.clean, hpr]
  · intro hpr
    exact ⟨{ st with stocks := st.stocks ++ [{ s with symbol := upperString s.symbol }] },
      by simp [Stock.save, Stock.clean, if_neg (not_le.mpr hpr)]⟩

/-- Witness for C8: the spec §8 case, a $-50.00 stock is rejected. -/
theorem stock_price_validation_witness :
    Stock.save emptyState ⟨"MSFT", "Microsoft", -5000, 0⟩ =
      .error "Stock price must be positive" :=
  (stock_price_validation emptyState ⟨"MSFT", "Microsoft", -5000, 0⟩).1 (by decide)

/-- C9: on a portfolio with no holdings, `create_daily_snapshot` records a
snapshot whose total value and cash balance both equal the portfolio's
balance, appended after the existing snapshots, with the portfolio row,
the holdings, the stocks and the transactions all untouched. -/
theorem create_daily_snapshot_spec (st : TradingState) (p : Portfolio)
    (hnone : ∀ h ∈ st.holdings, h.portfolioId ≠ p.userId) :
    (Portfolio.create_daily_snapshot st p).fst.totalValue = p.balance ∧
    (Portfolio.create_daily_snapshot st p).fst.cashBalance = p.balance ∧
    (Portfolio.create_daily_snapshot st p).snd.snapshots =
      st.snapshots ++ [(Portfolio.create_daily_snapshot st p).fst] ∧
    (Portfolio.create_daily_snapshot st p).snd.portfolios = st.portfolios ∧
    (Portfolio.create_daily_snapshot st p).snd.holdings = st.holdings ∧
    (Portfolio.create_daily_snapshot st p).snd.stocks = st.stocks ∧
    (Portfolio.create_daily_snapshot st p).snd.transactions = st.transactions := by
  have hfilter : st.holdings.filter (fun h => h.portfolioId == p.userId) = [] := by
    rw [List.filter_eq_nil_iff]
    intro a ha
    simpa using hnone a ha
  refine ⟨?_, rfl, rfl, rfl, rfl, rfl, rfl⟩
  simp [Portfolio.create_daily_snapshot, Portfolio.calculate_total_value, hfilter]

/-- Witness for C9: the fresh $1000.00 portfolio snapshots to
total value = cash = $1000.00. -/
theorem create_daily_snapshot_spec_witness :
    (Portfolio.create_daily_snapshot initState buyer).fst.totalValue = buyer.balance :=
  (create_daily_snapshot_spec initState buyer (by decide)).1
